import Mathlib

/-!
Verification of the prompt-rendering pipeline of the gumbee/prompt
repository: the node/element model (src/types.ts, src/element.ts), the
tree walker and IR finalizer (src/render.ts), the WrapUser utilities
(src/utils.ts), the built-in components (src/components/*.ts) and the
OpenAI / Anthropic adapters (src/adapters/openai.ts,
src/adapters/anthropic.ts), shallowly embedded as executable Lean
definitions.  JavaScript objects with optional keys are modelled with
Option fields (none = the key is absent / undefined); JS truthiness is
made explicit wherever the source relies on it.
-/

namespace GumbeePrompt

/-- Roles of IR messages, mirroring the Role union of src/types.ts. -/
inductive Role where
  | system
  | user
  | assistant
  | tool
deriving DecidableEq, Repr

/-- Untyped JSON-like JavaScript values (used for props such as args,
input, data, json, and for native passthrough content). -/
inductive JsValue where
  | null
  | bool (b : Bool)
  | num (n : Int)
  | str (s : String)
  | arr (xs : List JsValue)
  | obj (fields : List (String × JsValue))

/-- JS truthiness of a JsValue: null, false, 0 and the empty string are
falsy, every other value (including empty arrays and objects) is truthy. -/
def JsValue.truthy : JsValue → Bool
  | .null => false
  | .bool b => b
  | .num n => n != 0
  | .str s => s != ""
  | .arr _ => true
  | .obj _ => true

mutual

/-- Compact JSON serialisation, mirroring the default (two-argument-free)
JSON.stringify used by the Json component.  String escaping is not
modelled; none of the verified claims serialise strings that would need
escapes. -/
def JsValue.stringify : JsValue → String
  | .null => "null"
  | .bool true => "true"
  | .bool false => "false"
  | .num n => toString n
  | .str s => "\"" ++ s ++ "\""
  | .arr xs => "[" ++ String.intercalate "," (JsValue.stringifyList xs) ++ "]"
  | .obj fs => "\x7b" ++ String.intercalate "," (JsValue.stringifyObj fs) ++ "\x7d"

/-- Serialise every element of a JSON array. -/
def JsValue.stringifyList : List JsValue → List String
  | [] => []
  | x :: xs => JsValue.stringify x :: JsValue.stringifyList xs

/-- Serialise every key/value pair of a JSON object. -/
def JsValue.stringifyObj : List (String × JsValue) → List String
  | [] => []
  | (k, v) :: fs => ("\"" ++ k ++ "\":" ++ JsValue.stringify v) :: JsValue.stringifyObj fs

end

/-- The wrap-user positioning modes, "prefix" and "suffix" in the source. -/
inductive WrapMode where
  | pre
  | suf
deriving DecidableEq, Repr

/-- The two file-part kinds of IRFilePart, "image" and "file". -/
inductive FileKind where
  | image
  | file
deriving DecidableEq, Repr

/-- IR content parts: either a text part or a file/image part
(IRContentPart of src/types.ts). -/
inductive IRContentPart where
  | text (text : String)
  | filePart (kind : FileKind) (mimeType : String) (data : String)
      (isUrl : Bool) (filename : Option String)
deriving Repr

/-- A tool call recorded in the IR.  The tree walker writes the keys id,
name and args; the field input mirrors reading the (never written) input
key of the record, which in JavaScript yields undefined — hence it is
always none on walker-produced values. -/
structure IRToolCall where
  id : String
  name : String
  args : JsValue
  input : Option JsValue := none

/-- Built-in element kinds.  The source dispatches on string tags
("llm:system", "llm:group", ...) plus the fragment symbol; this closed
set mirrors exactly the tags the walker distinguishes, with unknown
covering every unrecognised string tag. -/
inductive ElemTag where
  | fragment
  | native
  | wrapUser
  | group
  | toolCall
  | system
  | user
  | assistant
  | toolResult
  | json
  | file
  | ifTag
  | showTag
  | eachTag
  | unknown (name : String)
deriving DecidableEq, Repr

/-- The props record of an element.  Each field models one key of the
JavaScript props object; none means the key is absent (undefined). -/
structure Props where
  tag : Option String := none
  mode : Option WrapMode := none
  indent : Option Nat := none
  inlineFlag : Option Bool := none
  id : Option String := none
  name : Option String := none
  json : Option JsValue := none
  isError : Option Bool := none
  args : Option JsValue := none
  input : Option JsValue := none
  data : Option JsValue := none
  kind : Option FileKind := none
  isUrl : Option Bool := none
  mimeType : Option String := none
  filename : Option String := none
  content : Option JsValue := none

/-- Prompt nodes (PromptNode of src/types.ts): null/undefined, booleans,
strings, numbers, nested arrays, deferred-conditional functions (which
receive the hasUser flag), and elements. -/
inductive Node where
  | nullish
  | boolVal (b : Bool)
  | str (s : String)
  | num (n : Int)
  | list (xs : List Node)
  | fn (f : Bool → Node)
  | elem (tag : ElemTag) (props : Props) (children : List Node)

mutual

/-- Flattens nested child arrays and filters out null/undefined/boolean
values (flattenChildren of src/element.ts). -/
def flattenChildren : List Node → List Node
  | [] => []
  | c :: rest => flattenOne c ++ flattenChildren rest

/-- The body of the flattening loop: null/undefined/boolean children are
dropped, arrays are flattened recursively, everything else is kept. -/
def flattenOne : Node → List Node
  | .nullish => []
  | .boolVal _ => []
  | .list xs => flattenChildren xs
  | c => [c]

end

/-- createElement of src/element.ts: builds an element with flattened,
filtered children. -/
def createElement (tag : ElemTag) (props : Props) (children : List Node) : Node :=
  .elem tag props (flattenChildren children)

/-- JS String.prototype.trim, modelled over the ASCII whitespace
characters Lean's Char.isWhitespace recognises (space, tab, CR, LF); the
verified claims use no exotic Unicode whitespace. -/
def jsTrim (s : String) : String :=
  String.mk (((s.toList.dropWhile Char.isWhitespace).reverse.dropWhile
    Char.isWhitespace).reverse)

/-- Accumulating worker of splitOnChar; cur holds the reversed current
field. -/
def splitOnCharAux (sep : Char) (cur : List Char) : List Char → List String
  | [] => [String.mk cur.reverse]
  | c :: rest =>
    if c = sep then String.mk cur.reverse :: splitOnCharAux sep [] rest
    else splitOnCharAux sep (c :: cur) rest

/-- Split a string on a single separator character, with the semantics of
String.prototype.split for one-character separators (the empty string
yields one empty field). -/
def splitOnChar (sep : Char) (s : String) : List String :=
  splitOnCharAux sep [] s.toList

/-- ASCII lower-casing of a string (String.prototype.toLowerCase on the
ASCII inputs the source applies it to). -/
def lowerStr (s : String) : String :=
  String.mk (s.toList.map Char.toLower)

/-- The string-or-default idiom String(x || d) applied to an optional
string prop: an absent key or an empty string falls back to the default. -/
def jsStrOr (o : Option String) (d : String) : String :=
  match o with
  | some s => if s = "" then d else s
  | none => d

/-- JS String() coercion of a JsValue, as used on file props.  Only the
string case is exercised by the repository's components. -/
def jsToString : JsValue → String
  | .null => "null"
  | .bool true => "true"
  | .bool false => "false"
  | .num n => toString n
  | .str s => s
  | .arr xs => String.intercalate "," (JsValue.stringifyList xs)
  | .obj _ => "[object Object]"

/-- Truthiness of an optional string prop (absent or empty string is falsy). -/
def strTruthy : Option String → Bool
  | some s => s != ""
  | none => false

/-- An in-progress message of the walker (RenderMessage of src/render.ts).
Optional record keys are Option fields; boolean flags that the source
only ever sets to true default to false. -/
structure RenderMessage where
  role : Role
  content : List String
  parts : List IRContentPart
  toolCalls : Option (List IRToolCall) := none
  toolCallId : Option String := none
  toolName : Option String := none
  toolResultJson : Option JsValue := none
  toolResultIsError : Bool := false
  isNative : Bool := false
  nativeContent : Option JsValue := none
  isWrapUser : Bool := false
  wrapUserTag : Option String := none
  wrapUserMode : Option WrapMode := none
  wrapUserConditions : Option (List (Bool → Node)) := none

/-- Replace the element at position i, leaving the list unchanged when i
is out of range.  This models in-place mutation of the array element the
source captured by reference. -/
def modifyAt (i : Nat) (f : α → α) : List α → List α
  | [] => []
  | x :: xs =>
    match i with
    | 0 => f x :: xs
    | n + 1 => x :: modifyAt n f xs

/-- Mutate the last element of a list (messages[messages.length - 1]). -/
def modifyLast (f : α → α) (l : List α) : List α :=
  modifyAt (l.length - 1) f l

/-- Strip leading and trailing newline characters, the
replace(/^\n+|\n+$/g, "") step of the Group block formatter. -/
def stripEdgeNewlines (s : String) : String :=
  let l := s.toList.dropWhile (· = '\n')
  String.mk ((l.reverse.dropWhile (· = '\n')).reverse)

/-- Re-indent every non-empty line by the given number of spaces:
content.split("\n").map(line => line ? indentStr + line : line).join("\n"),
shared between the Group block formatter and wrapXml. -/
def indentLines (indent : Nat) (content : String) : String :=
  let indentStr := String.mk (List.replicate indent ' ')
  String.intercalate "\n"
    ((splitOnChar '\n' content).map (fun line => if line = "" then line else indentStr ++ line))

/-- The placeholder written for the i-th deferred wrap-user condition:
"\x00COND_" + i + "\x00". -/
def condPlaceholder (i : Nat) : String :=
  "\x00COND_" ++ toString i ++ "\x00"

/-- Role associated to a message marker (getRoleFromType of
src/components/message.ts, restricted to the four message tags the walker
reaches in its message branch). -/
def roleOfMessageTag : ElemTag → Role
  | .system => .system
  | .user => .user
  | .toolResult => .tool
  | _ => .assistant

/-- Whether a child of a tool-result marker is meaningful for structured
auto-detection: whitespace-only strings are filtered out, null/undefined
are filtered out, everything else (numbers, booleans, arrays, functions,
elements) is kept. -/
def isMeaningful : Node → Bool
  | .str s => jsTrim s != ""
  | .nullish => false
  | _ => true

/-- extractJsonData of src/render.ts: a Json marker element carrying a
data prop yields that prop.  The source's second branch (a Json function
component not yet substituted) cannot arise here because components are
applied eagerly in this embedding. -/
def extractJsonData : Node → Option JsValue
  | .elem tag props _ =>
    if tag = .json ∧ props.data.isSome then props.data else none
  | _ => none

/-- Copies the tool-result props onto a fresh tool message, including the
single-structured-child auto-detection (the TOOL_RESULT branch of
processElement in src/render.ts). -/
def addToolResultProps (m : RenderMessage) (props : Props) (children : List Node) :
    RenderMessage :=
  let m := if strTruthy props.id then { m with toolCallId := some (props.id.getD "") } else m
  let m := if strTruthy props.name then { m with toolName := some (props.name.getD "") } else m
  let m := match props.json with
    | some v => { m with toolResultJson := some v }
    | none => m
  let m := if (props.isError.getD false) then { m with toolResultIsError := true } else m
  match props.json with
  | some _ => m
  | none =>
    match children.filter isMeaningful with
    | [c] =>
      match extractJsonData c with
      | some d => { m with toolResultJson := some d }
      | none => m
    | _ => m

/-- The string/number branch of processNode: append to the last message
only when it exists and its role equals the active role context. -/
def appendText (s : String) (messages : List RenderMessage) (currentRole : Option Role) :
    List RenderMessage :=
  match currentRole with
  | none => messages
  | some r =>
    match messages.getLast? with
    | some m =>
      if m.role = r then
        modifyLast (fun mm => { mm with content := mm.content ++ [s] }) messages
      else messages
    | none => messages

/-- The fresh message pushed by a message marker
(System/User/Assistant/ToolResult), including the tool-result prop
copying and auto-detection. -/
def startedMessage (tag : ElemTag) (props : Props) (children : List Node) : RenderMessage :=
  let role := roleOfMessageTag tag
  let base : RenderMessage := { role := role, content := [], parts := [] }
  if tag = .toolResult then addToolResultProps base props children else base

mutual

/-- processNode of src/render.ts: dispatch on the node kind.  Elements
are dispatched inline (the source's processElement), preserving its
branch order; stray functions outside a wrap-user marker fall through
every typeof test of the source and are ignored. -/
def processNode (node : Node) (messages : List RenderMessage) (currentRole : Option Role) :
    List RenderMessage :=
  match node with
  | .nullish => messages
  | .boolVal _ => messages
  | .str s => appendText s messages currentRole
  | .num n => appendText (toString n) messages currentRole
  | .list xs => processList xs messages currentRole
  | .fn _ => messages
  | .elem tag props children =>
    match tag with
    | .fragment => processList children messages currentRole
    | .native =>
      messages ++ [{ role := .user, content := [], parts := [],
                     isNative := true, nativeContent := props.content }]
    | .wrapUser =>
      let t := jsStrOr props.tag "user"
      let mode := props.mode.getD .suf
      let newMessage : RenderMessage :=
        { role := .user, content := [], parts := [], isWrapUser := true,
          wrapUserTag := some t, wrapUserMode := some mode }
      processWrapChildren messages.length children (messages ++ [newMessage])
    | .group =>
      let t := jsStrOr props.tag "group"
      let indent := match props.indent with
        | some n => if n = 0 then 2 else n
        | none => 2
      let inl := props.inlineFlag.getD false
      match currentRole with
      | none => messages
      | some r =>
        match messages.getLast? with
        | none => messages
        | some m =>
          if m.role = r then
            let i := messages.length - 1
            if inl then
              let ms1 := modifyAt i
                (fun mm => { mm with content := mm.content ++ ["<" ++ t ++ ">"] }) messages
              let ms2 := processList children ms1 (some r)
              modifyAt i
                (fun mm => { mm with content := mm.content ++ ["</" ++ t ++ ">"] }) ms2
            else
              let buf := processList children
                [{ role := r, content := [], parts := [] }] (some r)
              let childContent :=
                stripEdgeNewlines (((buf.head?).map (fun b => String.join b.content)).getD "")
              let indented := indentLines indent childContent
              modifyAt i
                (fun mm => { mm with content :=
                  mm.content ++ ["<" ++ t ++ ">\n", indented, "\n</" ++ t ++ ">\n"] })
                messages
          else messages
    | .toolCall =>
      let tc : IRToolCall :=
        { id := props.id.getD "",
          name := props.name.getD "",
          args := match props.args with
            | some v => if v.truthy then v else .obj []
            | none => .obj [] }
      match messages.getLast? with
      | some m =>
        if m.role = .assistant then
          modifyLast
            (fun mm => { mm with toolCalls := some ((mm.toolCalls.getD []) ++ [tc]) })
            messages
        else
          messages ++ [{ role := .assistant, content := [], parts := [],
                         toolCalls := some [tc] }]
      | none =>
        messages ++ [{ role := .assistant, content := [], parts := [],
                       toolCalls := some [tc] }]
    | .system =>
      processList children (messages ++ [startedMessage .system props children]) (some .system)
    | .user =>
      processList children (messages ++ [startedMessage .user props children]) (some .user)
    | .assistant =>
      processList children (messages ++ [startedMessage .assistant props children])
        (some .assistant)
    | .toolResult =>
      processList children (messages ++ [startedMessage .toolResult props children])
        (some .tool)
    | .json =>
      match currentRole with
      | none => messages
      | some r =>
        match messages.getLast? with
        | some m =>
          if m.role = r then processList children messages (some r) else messages
        | none => messages
    | .file =>
      match currentRole with
      | none => messages
      | some r =>
        match messages.getLast? with
        | some m =>
          if m.role = r then
            modifyLast
              (fun mm => { mm with parts := mm.parts ++
                [IRContentPart.filePart
                  (props.kind.getD .file)
                  (jsStrOr props.mimeType "application/octet-stream")
                  (match props.data with
                   | some v => if v.truthy then jsToString v else ""
                   | none => "")
                  (props.isUrl.getD false)
                  (if strTruthy props.filename then props.filename else none)] })
              messages
          else messages
        | none => messages
    | .ifTag => processList children messages currentRole
    | .showTag => processList children messages currentRole
    | .eachTag => processList children messages currentRole
    | .unknown _ => processList children messages currentRole

/-- Process a list of sibling nodes in order under one role context. -/
def processList (l : List Node) (messages : List RenderMessage) (currentRole : Option Role) :
    List RenderMessage :=
  match l with
  | [] => messages
  | c :: cs => processList cs (processNode c messages currentRole) currentRole

/-- The wrap-user child loop: function children are stored (with a
position placeholder appended to the wrap-user message at index i),
everything else is walked under the user role. -/
def processWrapChildren (i : Nat) (children : List Node) (messages : List RenderMessage) :
    List RenderMessage :=
  match children with
  | [] => messages
  | .fn f :: cs =>
    let messages' := modifyAt i
      (fun m =>
        let conds := m.wrapUserConditions.getD []
        { m with content := m.content ++ [condPlaceholder conds.length],
                 wrapUserConditions := some (conds ++ [f]) })
      messages
    processWrapChildren i cs messages'
  | c :: cs => processWrapChildren i cs (processNode c messages (some .user))

end

/-- The finalized IR message (IRMessage of src/types.ts).  Fields the
finalizer leaves undefined are none. -/
structure IRMessage where
  role : Role
  content : String
  parts : Option (List IRContentPart) := none
  toolCalls : Option (List IRToolCall) := none
  toolCallId : Option String := none
  toolName : Option String := none
  toolResultJson : Option JsValue := none
  toolResultIsError : Option Bool := none
  isNative : Option Bool := none
  nativeContent : Option JsValue := none
  isWrapUser : Option Bool := none
  wrapUserTag : Option String := none
  wrapUserMode : Option WrapMode := none
  wrapUserConditions : Option (List (Bool → Node)) := none

/-- The finalization step of renderToIR: native messages pass through,
otherwise fragments are joined and trimmed, parts get a leading text part
when the trimmed text is non-empty, and optional fields are copied only
when present (with the source's truthiness tests). -/
def finalizeMessage (msg : RenderMessage) : IRMessage :=
  if msg.isNative then
    { role := msg.role, content := "", isNative := some true,
      nativeContent := msg.nativeContent }
  else
    let textContent := jsTrim (String.join msg.content)
    { role := msg.role,
      content := textContent,
      parts :=
        if msg.parts.length > 0 then
          some ((if textContent != "" then [IRContentPart.text textContent] else [])
                ++ msg.parts)
        else none,
      toolCalls :=
        match msg.toolCalls with
        | some tcs => if tcs.length > 0 then some tcs else none
        | none => none,
      toolCallId := if strTruthy msg.toolCallId then msg.toolCallId else none,
      toolName := if strTruthy msg.toolName then msg.toolName else none,
      toolResultJson := msg.toolResultJson,
      toolResultIsError := if msg.toolResultIsError then some true else none,
      isWrapUser := if msg.isWrapUser then some true else none,
      wrapUserTag := if msg.isWrapUser then msg.wrapUserTag else none,
      wrapUserMode := if msg.isWrapUser then msg.wrapUserMode else none,
      wrapUserConditions :=
        if msg.isWrapUser then
          match msg.wrapUserConditions with
          | some conds => if conds.length > 0 then some conds else none
          | none => none
        else none }

/-- renderToIR of src/render.ts: walk the top-level nodes with no active
role, then finalize every in-progress message in order. -/
def renderToIR (nodes : List Node) : List IRMessage :=
  (processList nodes [] none).map finalizeMessage

/-- Result of rendering a content fragment: text plus file parts
(RenderContentResult of src/render.ts). -/
structure RenderContentResult where
  content : String
  parts : List IRContentPart

/-- renderToContent of src/render.ts: process a node as if inside a user
message and return the first buffer message's joined text and parts. -/
def renderToContent (node : Node) : RenderContentResult :=
  let messages := processList [node]
    [{ role := .user, content := [], parts := [] }] (some .user)
  { content := String.join (((messages.head?).map (·.content)).getD []),
    parts := ((messages.head?).map (·.parts)).getD [] }

/-! ## Built-in components (src/components) -/

/-- System message component. -/
def System (children : Node) : Node := createElement .system {} [children]

/-- User message component. -/
def User (children : Node) : Node := createElement .user {} [children]

/-- Assistant message component. -/
def Assistant (children : Node) : Node := createElement .assistant {} [children]

/-- ToolResult component: forwards id/name/json/isError as props. -/
def ToolResult (id : String) (name : Option String) (json : Option JsValue)
    (isError : Option Bool) (children : Node) : Node :=
  createElement .toolResult
    { id := some id, name := name, json := json, isError := isError } [children]

/-- ToolCall component of src/components/message.ts.  Note that it stores
the authored arguments under the input prop (and sets no args prop),
while the walker's tool-call branch reads the args prop. -/
def ToolCall (id : String) (name : String) (input : JsValue) : Node :=
  createElement .toolCall
    { id := some id, name := some name, input := some input } []

/-- Group component of src/components/xml.ts: fills the indent default 2
and the inline default false at construction time. -/
def Group (tag : String) (indent : Option Nat) (inl : Option Bool) (children : Node) : Node :=
  createElement .group
    { tag := some tag, indent := some (indent.getD 2), inlineFlag := some (inl.getD false) }
    [children]

/-- WrapUser component of src/components/wrap-user.ts: fills the tag
default "user" and the mode default suffix at construction time. -/
def WrapUser (tag : Option String) (mode : Option WrapMode) (children : Node) : Node :=
  createElement .wrapUser
    { tag := some (tag.getD "user"), mode := some (mode.getD .suf) } [children]

/-- Json component of src/components/data.ts, in its default compact
form: stores the original data for tool-result extraction and the
stringified text as the single child.  The pretty-printing option is not
exercised by any verified claim and is not modelled. -/
def Json (data : JsValue) : Node :=
  createElement .json { data := some data } [.str data.stringify]

/-- The props accepted by the File component. -/
structure FileProps where
  url : Option String := none
  base64 : Option String := none
  mimeType : Option String := none
  filename : Option String := none

/-- Whether a url names an image by extension,
the /\.(jpg|jpeg|png|gif|webp|svg)$/i test of src/components/data.ts. -/
def urlLooksImage (url : String) : Bool :=
  ["jpg", "jpeg", "png", "gif", "webp", "svg"].any
    (fun ext => ("." ++ ext).toList.reverse.isPrefixOf (lowerStr url).toList.reverse)

/-- Infer a MIME type from the url extension (inferMimeType of
src/components/data.ts). -/
def inferMimeType (url : Option String) : String :=
  match url with
  | none => "application/octet-stream"
  | some u =>
    let ext := lowerStr ((splitOnChar '.' u).getLast?.getD "")
    match ext with
    | "jpg" => "image/jpeg"
    | "jpeg" => "image/jpeg"
    | "png" => "image/png"
    | "gif" => "image/gif"
    | "webp" => "image/webp"
    | "svg" => "image/svg+xml"
    | "pdf" => "application/pdf"
    | "mp3" => "audio/mpeg"
    | "wav" => "audio/wav"
    | "mp4" => "video/mp4"
    | "webm" => "video/webm"
    | _ => "application/octet-stream"

/-- File component of src/components/data.ts: throws at construction
when neither url nor base64 is supplied (or when base64 lacks a MIME
type), otherwise builds a file marker element. -/
def File (p : FileProps) : Except String Node :=
  if strTruthy p.url = false ∧ strTruthy p.base64 = false then
    .error "File component requires either url or base64 prop"
  else if strTruthy p.base64 ∧ strTruthy p.mimeType = false then
    .error "File component requires mimeType when using base64"
  else
    let isImage :=
      match p.mimeType with
      | some mt => if mt = "" then
          (match p.url with
           | some u => if u = "" then false else urlLooksImage u
           | none => false)
        else ("image/".toList.isPrefixOf mt.toList)
      | none =>
        match p.url with
        | some u => if u = "" then false else urlLooksImage u
        | none => false
    .ok (createElement .file
      { kind := some (if isImage then .image else .file),
        data := some (.str (jsStrOr p.url (p.base64.getD ""))),
        isUrl := some (strTruthy p.url),
        mimeType := some (jsStrOr p.mimeType (inferMimeType (if strTruthy p.url then p.url else none))),
        filename := p.filename } [])

/-- Whether an Except value is a success. -/
def exceptOk : Except ε α → Bool
  | .ok _ => true
  | .error _ => false

/-! ## WrapUser utilities (src/utils.ts) -/

/-- wrapXml of src/components/xml.ts: wrap string content in XML-style
tags, indenting each non-empty line when an indent is requested. -/
def wrapXml (tag : String) (content : String) (indentOpt : Option Nat) : String :=
  let indent := indentOpt.getD 0
  if indent > 0 then
    "<" ++ tag ++ ">\n" ++ indentLines indent content ++ "\n</" ++ tag ++ ">"
  else
    "<" ++ tag ++ ">\n" ++ content ++ "\n</" ++ tag ++ ">"

/-- Parse a non-empty digit run into a Nat (the parseInt on a placeholder
index capture). -/
def digitsToNat (ds : List Char) : Nat :=
  ds.foldl (fun acc c => acc * 10 + (c.toNat - 48)) 0

/-- The literal characters "COND_" expected after the opening "\x00" of a
placeholder. -/
def condTargetChars : List Char := ['C', 'O', 'N', 'D', '_']

/-- Scanner state while replacing placeholders: either outside a
candidate match, inside the literal "COND_" piece (seen characters so
far, next expected character, remaining expected characters), or inside
the digit run. -/
inductive ScanState where
  | idle
  | cond (seen : List Char) (expected : Char) (todo : List Char)
  | digits (ds : List Char)

/-- Single-pass scanner implementing the global regex replacement
content.replace(/\x00COND_(\d+)\x00/g, cb) of src/utils.ts: each
well-formed placeholder is replaced by lookup of its index, everything
else is copied through; a failed candidate match is emitted literally and
scanning resumes at the failing character, exactly as the regex engine
resumes after a failed match attempt. -/
def scanPlaceholders (lookup : Nat → String) : ScanState → List Char → String
  | .idle, [] => ""
  | .idle, c :: rest =>
    if c = '\x00' then scanPlaceholders lookup (.cond [] 'C' ['O', 'N', 'D', '_']) rest
    else String.singleton c ++ scanPlaceholders lookup .idle rest
  | .cond seen _ _, [] => String.mk ('\x00' :: seen)
  | .cond seen e todo, c :: rest =>
    if c = e then
      match todo with
      | [] => scanPlaceholders lookup (.digits []) rest
      | e' :: todo' => scanPlaceholders lookup (.cond (seen ++ [c]) e' todo') rest
    else
      String.mk ('\x00' :: seen) ++
        (if c = '\x00' then scanPlaceholders lookup (.cond [] 'C' ['O', 'N', 'D', '_']) rest
         else String.singleton c ++ scanPlaceholders lookup .idle rest)
  | .digits ds, [] => String.mk ('\x00' :: condTargetChars ++ ds)
  | .digits ds, c :: rest =>
    if c.isDigit then scanPlaceholders lookup (.digits (ds ++ [c])) rest
    else if c = '\x00' ∧ ds ≠ [] then
      lookup (digitsToNat ds) ++ scanPlaceholders lookup .idle rest
    else
      String.mk ('\x00' :: condTargetChars ++ ds) ++
        (if c = '\x00' then scanPlaceholders lookup (.cond [] 'C' ['O', 'N', 'D', '_']) rest
         else String.singleton c ++ scanPlaceholders lookup .idle rest)

/-- Replace every placeholder \x00COND_i\x00 in s by lookup i. -/
def replacePlaceholders (s : String) (lookup : Nat → String) : String :=
  scanPlaceholders lookup .idle s.toList

/-- Result of evaluating wrap-user content (EvaluatedContent of
src/utils.ts). -/
structure EvaluatedContent where
  content : String
  parts : List IRContentPart

/-- Coerce one evaluated condition result: null/undefined/false become
the empty string, strings pass through, and any other node is rendered
through renderToContent (yielding text plus file parts). -/
def evalCondResult (n : Node) : String × List IRContentPart :=
  match n with
  | .nullish => ("", [])
  | .boolVal false => ("", [])
  | .str s => (s, [])
  | r =>
    let res := renderToContent r
    (res.content, res.parts)

/-- evaluateWrapUserContent of src/utils.ts: evaluate every stored
condition function once with the hasUser flag, then substitute the
results back into their placeholder positions; parts are collected in
function order. -/
def evaluateWrapUserContent (msg : IRMessage) (hasUser : Bool) : EvaluatedContent :=
  match msg.wrapUserConditions with
  | some conds =>
    if conds.length > 0 then
      let results := conds.map (fun f => evalCondResult (f hasUser))
      { content := replacePlaceholders msg.content
          (fun i => (((results.get? i).map Prod.fst).getD "")),
        parts := (results.map Prod.snd).flatten }
    else { content := msg.content, parts := [] }
  | none => { content := msg.content, parts := [] }

/-- processWrapUsers of src/utils.ts: evaluate every wrap-user message,
split the evaluated texts into prefix-mode and suffix-mode buckets (last
tag wins), wrap the original user content with wrapXml at indent 2, and
join prefixes, wrapped original and suffixes with double newlines. -/
def processWrapUsers (wrapUserMessages : List IRMessage) (originalContent : String)
    (hasUser : Bool) : EvaluatedContent :=
  let acc := wrapUserMessages.foldl
    (fun (acc : List String × List String × List IRContentPart × String) msg =>
      let mode := msg.wrapUserMode.getD .suf
      let e := evaluateWrapUserContent msg hasUser
      let t := msg.wrapUserTag.getD "user"
      match mode with
      | .pre => (acc.1 ++ [e.content], acc.2.1, acc.2.2.1 ++ e.parts, t)
      | .suf => (acc.1, acc.2.1 ++ [e.content], acc.2.2.1 ++ e.parts, t))
    ([], [], [], "user")
  let wrappedOriginal := wrapXml acc.2.2.2 originalContent (some 2)
  { content := String.intercalate "\n\n" (acc.1 ++ [wrappedOriginal] ++ acc.2.1),
    parts := acc.2.2.1 }

/-- Truthy wrap-user flag of a finalized IR message. -/
def IRMessage.wrapFlag (m : IRMessage) : Bool := m.isWrapUser.getD false

/-- Truthy native flag of a finalized IR message. -/
def IRMessage.nativeFlag (m : IRMessage) : Bool := m.isNative.getD false

/-- Index of the last element satisfying p (Array.findLastIndex, with
none standing for the source's -1). -/
def findLastIndex (p : α → Bool) (l : List α) : Option Nat :=
  (l.foldl (fun (st : Nat × Option Nat) a =>
    (st.1 + 1, if p a then some st.1 else st.2)) ((0 : Nat), none)).2

/-! ## Format A adapter (src/adapters/openai.ts) -/

/-- OpenAI wire content parts: text or image_url. -/
inductive ChatContentPart where
  | text (text : String)
  | imageUrl (url : String)
deriving DecidableEq, Repr

/-- OpenAI wire message content: a plain string, a part array, or null. -/
inductive ChatContent where
  | str (s : String)
  | parts (ps : List ChatContentPart)
  | null
deriving DecidableEq, Repr

/-- One entry of an assistant message's tool_calls array; arguments is
the JSON-serialised argument object. -/
structure OpenAIToolCall where
  id : String
  name : String
  arguments : String
deriving DecidableEq, Repr

/-- An OpenAI chat message.  The native field carries the payload of the
source's untyped native-passthrough cast; it is none for every message
built from ordinary IR content. -/
structure OpenAIMessage where
  role : Role
  content : ChatContent
  tool_calls : Option (List OpenAIToolCall) := none
  tool_call_id : Option String := none
  native : Option JsValue := none

/-- Convert an IR content part to an OpenAI content part: images become
image_url entries (URL or data URI), other files degrade to a descriptive
text part. -/
def toOpenAIContentPart (part : IRContentPart) : ChatContentPart :=
  match part with
  | .text t => .text t
  | .filePart kind mt data isUrl filename =>
    match kind with
    | .image => .imageUrl (if isUrl then data else "data:" ++ mt ++ ";base64," ++ data)
    | .file => .text ("[File: " ++ jsStrOr filename "attachment" ++ " (" ++ mt ++ ")]")

/-- extractContent of src/adapters/openai.ts: the text of a
caller-supplied message (concatenating text parts), empty for tool
messages and null content. -/
def extractContent (msg : OpenAIMessage) : String :=
  if msg.role = .tool then ""
  else
    match msg.content with
    | .str s => s
    | .parts ps =>
      String.join (ps.map (fun p => match p with | .text t => t | _ => ""))
    | .null => ""

/-- toOpenAIMessage of src/adapters/openai.ts.  The native branch models
the source's unchecked cast by carrying the payload opaquely; no verified
claim exercises it. -/
def toOpenAIMessage (msg : IRMessage) : OpenAIMessage :=
  if msg.nativeFlag then
    { role := .user, content := .null, native := msg.nativeContent }
  else if msg.role = .tool then
    { role := .tool, content := .str msg.content,
      tool_call_id := some (msg.toolCallId.getD "") }
  else if msg.role = .assistant then
    match msg.toolCalls with
    | some tcs =>
      if tcs.length > 0 then
        { role := .assistant,
          content := if msg.content = "" then .null else .str msg.content,
          tool_calls := some (tcs.map (fun tc =>
            { id := tc.id, name := tc.name, arguments := tc.args.stringify })) }
      else { role := .assistant, content := .str msg.content }
    | none => { role := .assistant, content := .str msg.content }
  else if msg.role = .system then
    { role := .system, content := .str msg.content }
  else
    match msg.parts with
    | some ps =>
      if ps.length > 0 then { role := .user, content := .parts (ps.map toOpenAIContentPart) }
      else { role := .user, content := .str msg.content }
    | none => { role := .user, content := .str msg.content }

/-- buildUserMessage of src/adapters/openai.ts: plain string content when
there are no parts, otherwise a part array with the text part first when
the text is non-empty. -/
def buildUserMessage (content : String) (parts : List IRContentPart) : OpenAIMessage :=
  if parts.length = 0 then { role := .user, content := .str content }
  else
    { role := .user,
      content := .parts ((if content = "" then [] else [ChatContentPart.text content])
        ++ parts.map toOpenAIContentPart) }

/-- sortSystemFirst of src/adapters/openai.ts: stable partition moving
all system messages before all others. -/
def sortSystemFirst (messages : List OpenAIMessage) : List OpenAIMessage :=
  messages.filter (fun m => m.role == Role.system)
    ++ messages.filter (fun m => !(m.role == Role.system))

/-- Options of the Format A prompt entry point; messages supplies the
external conversation history for WrapUser. -/
structure PromptOptions where
  messages : Option (List OpenAIMessage) := none

/-- prompt of src/adapters/openai.ts (Format A): render to IR, combine
wrap-user messages with the last caller-supplied user message (evaluating
deferred conditions with hasUser true when such a message exists, false
otherwise), convert the rest, and sort system messages first. -/
def openaiPrompt (nodes : List Node) (options : Option PromptOptions) : List OpenAIMessage :=
  let ir := renderToIR nodes
  let wrapUserMessages := ir.filter (fun m => m.wrapFlag)
  let otherMessages := ir.filter (fun m => !m.wrapFlag)
  if wrapUserMessages.length > 0 then
    match options.bind PromptOptions.messages with
    | some optMessages =>
      match findLastIndex (fun m => m.role == Role.user) optMessages with
      | some lastUserIdx =>
        let originalContent :=
          extractContent (optMessages.getD lastUserIdx { role := .user, content := .str "" })
        let processed := processWrapUsers wrapUserMessages originalContent true
        sortSystemFirst
          ((optMessages.take lastUserIdx
            ++ [buildUserMessage processed.content processed.parts]
            ++ optMessages.drop (lastUserIdx + 1))
           ++ otherMessages.map toOpenAIMessage)
      | none =>
        let evaluated := wrapUserMessages.map (fun m => evaluateWrapUserContent m false)
        sortSystemFirst
          (optMessages
           ++ [buildUserMessage (String.intercalate "\n\n" (evaluated.map (·.content)))
                ((evaluated.map (·.parts)).flatten)]
           ++ otherMessages.map toOpenAIMessage)
    | none =>
      let evaluated := wrapUserMessages.map (fun m => evaluateWrapUserContent m false)
      sortSystemFirst
        ([buildUserMessage (String.intercalate "\n\n" (evaluated.map (·.content)))
           ((evaluated.map (·.parts)).flatten)]
         ++ otherMessages.map toOpenAIMessage)
  else
    sortSystemFirst (ir.map toOpenAIMessage)

/-! ## Format C adapter (src/adapters/anthropic.ts) -/

/-- Anthropic wire content blocks. -/
inductive AnthropicBlock where
  | text (text : String)
  | imageUrl (url : String)
  | imageBase64 (mediaType : String) (data : String)
  | documentUrl (url : String)
  | documentBase64 (data : String)
  | toolUse (id : String) (name : String) (input : Option JsValue)
  | toolResultBlock (toolUseId : String) (content : String)

/-- Anthropic message content: plain string or block array. -/
inductive AnthropicContent where
  | str (s : String)
  | blocks (bs : List AnthropicBlock)

/-- An Anthropic conversation message; native carries the untyped
passthrough cast, as in the Format A model. -/
structure AnthropicMessage where
  role : Role
  content : AnthropicContent
  native : Option JsValue := none

/-- Output of the Format C adapter: the concatenated system text as a
separate field, plus the conversation messages. -/
structure AnthropicOutput where
  system : Option String
  messages : List AnthropicMessage

/-- Convert an IR content part to an Anthropic content block; PDFs become
document blocks, unsupported mime types degrade to a descriptive text
block. -/
def toAnthropicContentBlock (part : IRContentPart) : AnthropicBlock :=
  match part with
  | .text t => .text t
  | .filePart kind mt data isUrl filename =>
    match kind with
    | .image => if isUrl then .imageUrl data else .imageBase64 mt data
    | .file =>
      if mt = "application/pdf" then
        if isUrl then .documentUrl data else .documentBase64 data
      else .text ("[File: " ++ jsStrOr filename "attachment" ++ " (" ++ mt ++ ")]")

/-- extractContent of src/adapters/anthropic.ts (no role guard here). -/
def anthropicExtractContent (msg : AnthropicMessage) : String :=
  match msg.content with
  | .str s => s
  | .blocks bs =>
    String.join (bs.map (fun b => match b with | .text t => t | _ => ""))

/-- toAnthropicMessage of src/adapters/anthropic.ts: system messages map
to null (handled separately), tool results become a tool_result block in
a user-role message, assistant tool calls become tool_use blocks whose
input field reads the (never written) input key of the IR tool call. -/
def toAnthropicMessage (msg : IRMessage) : Option AnthropicMessage :=
  if msg.nativeFlag then
    some { role := .user, content := .str "", native := msg.nativeContent }
  else if msg.role = .system then none
  else if msg.role = .tool then
    some { role := .user,
           content := .blocks [.toolResultBlock (msg.toolCallId.getD "") msg.content] }
  else if msg.role = .assistant then
    match msg.toolCalls with
    | some tcs =>
      if tcs.length > 0 then
        some { role := .assistant,
               content := .blocks
                 ((if msg.content = "" then [] else [AnthropicBlock.text msg.content])
                  ++ tcs.map (fun tc => .toolUse tc.id tc.name tc.input)) }
      else some { role := .assistant, content := .str msg.content }
    | none => some { role := .assistant, content := .str msg.content }
  else
    match msg.parts with
    | some ps =>
      if ps.length > 0 then
        some { role := .user, content := .blocks (ps.map toAnthropicContentBlock) }
      else some { role := .user, content := .str msg.content }
    | none => some { role := .user, content := .str msg.content }

/-- buildUserMessage of src/adapters/anthropic.ts. -/
def anthropicBuildUserMessage (content : String) (parts : List IRContentPart) :
    AnthropicMessage :=
  if parts.length = 0 then { role := .user, content := .str content }
  else
    { role := .user,
      content := .blocks ((if content = "" then [] else [AnthropicBlock.text content])
        ++ parts.map toAnthropicContentBlock) }

/-- Options of the Format C prompt entry point. -/
structure AnthropicPromptOptions where
  messages : Option (List AnthropicMessage) := none

/-- prompt of src/adapters/anthropic.ts (Format C): system IR messages
are extracted and joined with double newlines into the separate system
field; wrap-user handling mirrors Format A; the remaining messages are
converted with toAnthropicMessage. -/
def anthropicPrompt (nodes : List Node) (options : Option AnthropicPromptOptions) :
    AnthropicOutput :=
  let ir := renderToIR nodes
  let systemMessages :=
    ir.filter (fun m => m.role == Role.system && !m.nativeFlag && !m.wrapFlag)
  let system :=
    if systemMessages.length > 0 then
      some (String.intercalate "\n\n" (systemMessages.map (·.content)))
    else none
  let wrapUserMessages := ir.filter (fun m => m.wrapFlag)
  let otherMessages := ir.filter (fun m => !m.wrapFlag && !(m.role == Role.system))
  if wrapUserMessages.length > 0 then
    match options.bind AnthropicPromptOptions.messages with
    | some optMessages =>
      match findLastIndex (fun m => m.role == Role.user) optMessages with
      | some lastUserIdx =>
        let originalContent :=
          anthropicExtractContent
            (optMessages.getD lastUserIdx { role := .user, content := .str "" })
        let processed := processWrapUsers wrapUserMessages originalContent true
        { system := system,
          messages :=
            (optMessages.take lastUserIdx
             ++ [anthropicBuildUserMessage processed.content processed.parts]
             ++ optMessages.drop (lastUserIdx + 1))
            ++ otherMessages.filterMap toAnthropicMessage }
      | none =>
        let evaluated := wrapUserMessages.map (fun m => evaluateWrapUserContent m false)
        { system := system,
          messages :=
            optMessages
            ++ [anthropicBuildUserMessage
                 (String.intercalate "\n\n" (evaluated.map (·.content)))
                 ((evaluated.map (·.parts)).flatten)]
            ++ otherMessages.filterMap toAnthropicMessage }
    | none =>
      let evaluated := wrapUserMessages.map (fun m => evaluateWrapUserContent m false)
      { system := system,
        messages :=
          [anthropicBuildUserMessage
            (String.intercalate "\n\n" (evaluated.map (·.content)))
            ((evaluated.map (·.parts)).flatten)]
          ++ otherMessages.filterMap toAnthropicMessage }
  else
    { system := system, messages := otherMessages.filterMap toAnthropicMessage }

/-! ## Helper lemmas -/

/-- Appending the empty string is the identity on strings. -/
theorem str_append_empty (s : String) : s ++ "" = s := by
  cases s
  show String.mk _ = _
  simp

/-- Substring test over character lists: the needle occurs somewhere in
the haystack. -/
def containsSub (needle : List Char) : List Char → Bool
  | [] => needle.isEmpty
  | c :: t => needle.isPrefixOf (c :: t) || containsSub needle t

/-- Whether hay contains needle as a substring. -/
def strContains (hay needle : String) : Bool :=
  containsSub needle.toList hay.toList

/-- Mutating the last element of a list with two or more elements leaves
the head untouched. -/
theorem modifyLast_cons_cons (f : α → α) (a b : α) (t : List α) :
    modifyLast f (a :: b :: t) = a :: modifyLast f (b :: t) := by
  simp [modifyLast, modifyAt]

/-- Mutating the last element of a non-empty list replaces exactly the
last element. -/
theorem modifyLast_getLast (f : α → α) :
    ∀ (l : List α) (m : α), l.getLast? = some m →
      modifyLast f l = l.dropLast ++ [f m] := by
  intro l
  induction l with
  | nil => intro m h; simp at h
  | cons a t ih =>
    intro m h
    cases t with
    | nil =>
      simp at h
      subst h
      simp [modifyLast, modifyAt]
    | cons b t' =>
      rw [List.getLast?_cons_cons] at h
      rw [modifyLast_cons_cons, ih m h]
      simp

/-! ## Claim theorems -/

/-- Claim C1 (counterexample): with history [user "Q"] and wrap-user
content "A" under the defaults, the Format A output's single user message
does NOT have the content "<user>\nQ\n</user>\n\nA" stated by the claim —
the wrapped original is indented by two spaces. -/
theorem claim_C1_counterexample :
    ¬ ((openaiPrompt [WrapUser none none (.str "A")]
        (some { messages := some [{ role := .user, content := .str "Q" }] })).map extractContent
      = ["<user>\nQ\n</user>\n\nA"]) := by decide

/-- Claim C1 (amended): calling the Format A prompt with a default
wrap-user marker whose only child is "A" and history [user "Q"] returns
exactly one user message whose content is "<user>\n  Q\n</user>\n\nA":
the wrapped original is re-indented by two spaces (the Group default
indent that processWrapUsers passes to wrapXml), then joined to the new
content with a double newline. -/
theorem claim_C1 :
    openaiPrompt [WrapUser none none (.str "A")]
        (some { messages := some [{ role := .user, content := .str "Q" }] })
      = [{ role := .user, content := .str "<user>\n  Q\n</user>\n\nA" }] := rfl

/-- Claim C2 (counterexample): rendering two system markers "S1" and
"S2" leaves TWO separate system messages in the finalized IR; the IR does
not contain exactly one system message with content "S1\n\nS2" as the
claim states. -/
theorem claim_C2_counterexample :
    ¬ (((renderToIR [System (.str "S1"), System (.str "S2")]).filter
        (fun m => m.role == Role.system)).map (fun m => m.content)
      = ["S1\n\nS2"]) := by decide

set_option maxHeartbeats 4000000 in
/-- Claim C2 (amended): IR finalization does not combine system
messages — every system marker stays its own IR message in authored
position.  The double-newline concatenation happens only in the Format C
adapter, which extracts all system messages into the separate system
field; the Format A adapter keeps them as individual messages and merely
sorts them before the other roles, preserving relative order. -/
theorem claim_C2 (s1 u s2 : String) :
    ((renderToIR [System (.str s1), User (.str u), System (.str s2)]).map
        (fun m => (m.role, m.content))
      = [(.system, jsTrim s1), (.user, jsTrim u), (.system, jsTrim s2)])
    ∧ ((anthropicPrompt [System (.str s1), User (.str u), System (.str s2)] none).system
      = some (jsTrim s1 ++ "\n\n" ++ jsTrim s2))
    ∧ ((openaiPrompt [System (.str s1), User (.str u), System (.str s2)] none).map
        (fun m => (m.role, extractContent m))
      = [(.system, jsTrim s1), (.system, jsTrim s2), (.user, jsTrim u)]) :=
  ⟨rfl, rfl, rfl⟩

set_option maxHeartbeats 8000000 in
/-- Claim C3: a deferred-conditional wrap-user child is evaluated at
adapter time with hasUser true exactly when the caller-supplied history
contains a user-role message, and its result is spliced once into its
authored position: with history [user "Q"] the output is the wrapped
original followed by g true; with no options, an empty history, or a
history without user messages the new user message carries g false.  In
particular a function returning "X" when hasUser else "Y" yields content
containing "X" and not "Y" with a user history, and the reverse without
one. -/
theorem claim_C3 (g : Bool → String) :
    ((openaiPrompt [WrapUser none none (.fn (fun ctx => .str (g ctx)))]
        (some { messages := some [{ role := .user, content := .str "Q" }] })).map extractContent
      = ["<user>\n  Q\n</user>\n\n" ++ g true])
    ∧ ((openaiPrompt [WrapUser none none (.fn (fun ctx => .str (g ctx)))] none).map extractContent
      = [g false])
    ∧ ((openaiPrompt [WrapUser none none (.fn (fun ctx => .str (g ctx)))]
        (some { messages := some [] })).map extractContent
      = [g false])
    ∧ ((openaiPrompt [WrapUser none none (.fn (fun ctx => .str (g ctx)))]
        (some { messages := some [{ role := .assistant, content := .str "H" }] })).map extractContent
      = ["H", g false])
    ∧ ((openaiPrompt [WrapUser none none
          (.fn (fun ctx => if ctx then .str "X" else .str "Y"))]
        (some { messages := some [{ role := .user, content := .str "Q" }] })).map
          (fun m => (strContains (extractContent m) "X", strContains (extractContent m) "Y"))
      = [(true, false)])
    ∧ ((openaiPrompt [WrapUser none none
          (.fn (fun ctx => if ctx then .str "X" else .str "Y"))] none).map
          (fun m => (strContains (extractContent m) "X", strContains (extractContent m) "Y"))
      = [(false, true)]) := by
  refine ⟨?_, ?_, ?_, ?_, by decide, by decide⟩
  · show ["<user>\n  Q\n</user>\n\n" ++ (g true ++ "")]
        = ["<user>\n  Q\n</user>\n\n" ++ g true]
    rw [str_append_empty]
  · show [g false ++ ""] = [g false]
    rw [str_append_empty]
  · show [g false ++ ""] = [g false]
    rw [str_append_empty]
  · show ["H", g false ++ ""] = ["H", g false]
    rw [str_append_empty]

/-- Claim C4: a tool-call marker appends its call to the last in-progress
message when that message has role assistant, and otherwise opens a new
assistant message with just this call; consequently three consecutive
tool-call markers render to exactly one assistant IR message whose
toolCalls list has the three calls in authored order. -/
theorem claim_C4 (i1 n1 i2 n2 i3 n3 : String) :
    (renderToIR [createElement .toolCall { id := some i1, name := some n1 } [],
                 createElement .toolCall { id := some i2, name := some n2 } [],
                 createElement .toolCall { id := some i3, name := some n3 } []]
      = [{ role := .assistant, content := "",
           toolCalls := some [{ id := i1, name := n1, args := .obj [] },
                              { id := i2, name := n2, args := .obj [] },
                              { id := i3, name := n3, args := .obj [] }] }])
    ∧ (∀ (msgs : List RenderMessage) (m : RenderMessage),
        msgs.getLast? = some m → m.role = .assistant →
        processNode (createElement .toolCall { id := some i1, name := some n1 } []) msgs none
          = msgs.dropLast ++ [{ m with toolCalls := some ((m.toolCalls.getD []) ++ [{ id := i1, name := n1, args := .obj [] }]) }])
    ∧ (∀ (msgs : List RenderMessage) (m : RenderMessage),
        msgs.getLast? = some m → ¬ (m.role = .assistant) →
        processNode (createElement .toolCall { id := some i1, name := some n1 } []) msgs none
          = msgs ++ [{ role := .assistant, content := [], parts := [], toolCalls := some [{ id := i1, name := n1, args := .obj [] }] }]) := by
  refine ⟨rfl, ?_, ?_⟩
  · intro msgs m h hrole
    show (match msgs.getLast? with
          | some mm =>
            if mm.role = Role.assistant then
              modifyLast (fun x => { x with toolCalls := some ((x.toolCalls.getD []) ++ [{ id := i1, name := n1, args := .obj [] }]) }) msgs
            else msgs ++ [{ role := .assistant, content := [], parts := [], toolCalls := some [{ id := i1, name := n1, args := .obj [] }] }]
          | none => msgs ++ [{ role := .assistant, content := [], parts := [], toolCalls := some [{ id := i1, name := n1, args := .obj [] }] }])
        = msgs.dropLast ++ [{ m with toolCalls := some ((m.toolCalls.getD []) ++ [{ id := i1, name := n1, args := .obj [] }]) }]
    rw [h]
    show (if m.role = Role.assistant then
            modifyLast (fun x => { x with toolCalls := some ((x.toolCalls.getD []) ++ [{ id := i1, name := n1, args := .obj [] }]) }) msgs
          else msgs ++ [{ role := .assistant, content := [], parts := [], toolCalls := some [{ id := i1, name := n1, args := .obj [] }] }])
        = msgs.dropLast ++ [{ m with toolCalls := some ((m.toolCalls.getD []) ++ [{ id := i1, name := n1, args := .obj [] }]) }]
    rw [if_pos hrole]
    exact modifyLast_getLast _ msgs m h
  · intro msgs m h hrole
    show (match msgs.getLast? with
          | some mm =>
            if mm.role = Role.assistant then
              modifyLast (fun x => { x with toolCalls := some ((x.toolCalls.getD []) ++ [{ id := i1, name := n1, args := .obj [] }]) }) msgs
            else msgs ++ [{ role := .assistant, content := [], parts := [], toolCalls := some [{ id := i1, name := n1, args := .obj [] }] }]
          | none => msgs ++ [{ role := .assistant, content := [], parts := [], toolCalls := some [{ id := i1, name := n1, args := .obj [] }] }])
        = msgs ++ [{ role := .assistant, content := [], parts := [], toolCalls := some [{ id := i1, name := n1, args := .obj [] }] }]
    rw [h]
    show (if m.role = Role.assistant then
            modifyLast (fun x => { x with toolCalls := some ((x.toolCalls.getD []) ++ [{ id := i1, name := n1, args := .obj [] }]) }) msgs
          else msgs ++ [{ role := .assistant, content := [], parts := [], toolCalls := some [{ id := i1, name := n1, args := .obj [] }] }])
        = msgs ++ [{ role := .assistant, content := [], parts := [], toolCalls := some [{ id := i1, name := n1, args := .obj [] }] }]
    rw [if_neg hrole]

/-- Claim C4 (witness): applying the appending and opening branches at
concrete inputs. -/
theorem claim_C4_witness :
    (renderToIR [createElement .toolCall { id := some "1", name := some "a" } [],
                 createElement .toolCall { id := some "2", name := some "b" } [],
                 createElement .toolCall { id := some "3", name := some "c" } []]
      = [{ role := .assistant, content := "",
           toolCalls := some [{ id := "1", name := "a", args := .obj [] },
                              { id := "2", name := "b", args := .obj [] },
                              { id := "3", name := "c", args := .obj [] }] }])
    ∧ (processNode (createElement .toolCall { id := some "1", name := some "a" } [])
          [{ role := .assistant, content := [], parts := [] }] none
        = [{ role := .assistant, content := [], parts := [],
             toolCalls := some [{ id := "1", name := "a", args := .obj [] }] }])
    ∧ (processNode (createElement .toolCall { id := some "1", name := some "a" } [])
          [{ role := .user, content := [], parts := [] }] none
        = [{ role := .user, content := [], parts := [] },
           { role := .assistant, content := [], parts := [],
             toolCalls := some [{ id := "1", name := "a", args := .obj [] }] }]) := by
  refine ⟨(claim_C4 "1" "a" "2" "b" "3" "c").1, ?_, ?_⟩
  · exact (claim_C4 "1" "a" "2" "b" "3" "c").2.1
      [{ role := .assistant, content := [], parts := [] }]
      { role := .assistant, content := [], parts := [] } rfl rfl
  · exact (claim_C4 "1" "a" "2" "b" "3" "c").2.2
      [{ role := .user, content := [], parts := [] }]
      { role := .user, content := [], parts := [] } rfl (by decide)

/-- Claim C5: a group marker with tag "x" and single text child "V"
rendered alone inside a user message yields content "<x>V</x>" in inline
mode, and "<x>\n  V\n</x>" in block mode with the default indent 2 (the
block's trailing newline removed by the outer trim of the finalized
message). -/
theorem claim_C5 :
    ((renderToIR [User (Group "x" none (some true) (.str "V"))]).map
        (fun m => (m.role, m.content)) = [(.user, "<x>V</x>")])
    ∧ ((renderToIR [User (Group "x" none none (.str "V"))]).map
        (fun m => (m.role, m.content)) = [(.user, "<x>\n  V\n</x>")]) :=
  ⟨rfl, rfl⟩

/-- Claim C6: a tool-result marker without an explicit json prop adopts
the data of its single meaningful child when, after filtering
whitespace-only text nodes, exactly one Json leaf remains; with two
meaningful children nothing is adopted and the message degrades to the
plain concatenated text of the children. -/
theorem claim_C6 (d d1 d2 : JsValue) :
    ((renderToIR [ToolResult "call_1" none none none
        (.list [.str "  ", Json d, .str " \n "])]).map
        (fun m => (m.role, m.toolResultJson)) = [(.tool, some d)])
    ∧ ((renderToIR [ToolResult "call_1" none none none
        (.list [Json d1, Json d2])]).map (fun m => m.toolResultJson) = [none])
    ∧ ((renderToIR [ToolResult "call_1" none none none
        (.list [Json d1, Json d2])]).map (fun m => m.content)
      = [jsTrim (d1.stringify ++ d2.stringify)]) :=
  ⟨rfl, rfl, rfl⟩

/-- Claim C7: a string or number node is appended to the last in-progress
message exactly when that message exists and its role equals the active
role context; with no active role, no message, or a last message of a
different role, the text is discarded and the message list is unchanged. -/
theorem claim_C7 (s : String) (n : Int) (msgs : List RenderMessage) (r : Role) :
    (∀ m, msgs.getLast? = some m → m.role = r →
        processNode (.str s) msgs (some r)
          = msgs.dropLast ++ [{ m with content := m.content ++ [s] }]
      ∧ processNode (.num n) msgs (some r)
          = msgs.dropLast ++ [{ m with content := m.content ++ [toString n] }])
    ∧ (processNode (.str s) msgs none = msgs ∧ processNode (.num n) msgs none = msgs)
    ∧ (∀ m, msgs.getLast? = some m → ¬ (m.role = r) →
        processNode (.str s) msgs (some r) = msgs
      ∧ processNode (.num n) msgs (some r) = msgs)
    ∧ (msgs.getLast? = none →
        processNode (.str s) msgs (some r) = msgs
      ∧ processNode (.num n) msgs (some r) = msgs) := by
  refine ⟨?_, ⟨rfl, rfl⟩, ?_, ?_⟩
  · intro m h hrole
    constructor
    · show appendText s msgs (some r) = _
      unfold appendText
      rw [h]
      show (if m.role = r then modifyLast (fun mm => { mm with content := mm.content ++ [s] }) msgs else msgs) = _
      rw [if_pos hrole]
      exact modifyLast_getLast _ msgs m h
    · show appendText (toString n) msgs (some r) = _
      unfold appendText
      rw [h]
      show (if m.role = r then modifyLast (fun mm => { mm with content := mm.content ++ [toString n] }) msgs else msgs) = _
      rw [if_pos hrole]
      exact modifyLast_getLast _ msgs m h
  · intro m h hrole
    constructor
    · show appendText s msgs (some r) = msgs
      unfold appendText
      rw [h]
      show (if m.role = r then modifyLast (fun mm => { mm with content := mm.content ++ [s] }) msgs else msgs) = msgs
      rw [if_neg hrole]
    · show appendText (toString n) msgs (some r) = msgs
      unfold appendText
      rw [h]
      show (if m.role = r then modifyLast (fun mm => { mm with content := mm.content ++ [toString n] }) msgs else msgs) = msgs
      rw [if_neg hrole]
  · intro h
    constructor
    · show appendText s msgs (some r) = msgs
      unfold appendText
      rw [h]
    · show appendText (toString n) msgs (some r) = msgs
      unfold appendText
      rw [h]

/-- Claim C7 (witness): the four branches applied at concrete inputs. -/
theorem claim_C7_witness :
    (processNode (.str "hi") [{ role := .user, content := [], parts := [] }] (some .user)
      = [{ role := .user, content := ["hi"], parts := [] }])
    ∧ (processNode (.str "hi") [{ role := .user, content := [], parts := [] }] (some .system)
      = [{ role := .user, content := [], parts := [] }])
    ∧ (processNode (.str "hi") [] (some .user) = [])
    ∧ (processNode (.str "hi") [{ role := .user, content := [], parts := [] }] none
      = [{ role := .user, content := [], parts := [] }]) := by
  refine ⟨?_, ?_, ?_, ?_⟩
  · exact ((claim_C7 "hi" 0 [{ role := .user, content := [], parts := [] }] .user).1
      { role := .user, content := [], parts := [] } rfl rfl).1
  · exact ((claim_C7 "hi" 0 [{ role := .user, content := [], parts := [] }] .system).2.2.1
      { role := .user, content := [], parts := [] } rfl (by decide)).1
  · exact ((claim_C7 "hi" 0 [] .user).2.2.2 rfl).1
  · exact (claim_C7 "hi" 0 [{ role := .user, content := [], parts := [] }] .user).2.1.1

/-- Claim C8: constructing a file marker that supplies neither a url nor
base64 data fails with a caller-visible error at construction time
(before any walker involvement); every file marker supplying at least one
of the two constructs successfully, given a MIME type whenever base64 is
used. -/
theorem claim_C8 (p : FileProps) :
    (strTruthy p.url = false → strTruthy p.base64 = false →
      File p = .error "File component requires either url or base64 prop")
    ∧ ((strTruthy p.url = true ∨ strTruthy p.base64 = true) →
      (strTruthy p.base64 = true → strTruthy p.mimeType = true) →
      exceptOk (File p) = true) := by
  constructor
  · intro hu hb
    simp [File, hu, hb]
  · intro h1 h2
    cases hu : strTruthy p.url <;> cases hb : strTruthy p.base64 <;>
      cases hm : strTruthy p.mimeType <;> simp_all [File, exceptOk]

/-- Claim C8 (witness): the error and success branches at concrete
props. -/
theorem claim_C8_witness :
    (File { url := none, base64 := none, mimeType := none, filename := none }
      = .error "File component requires either url or base64 prop")
    ∧ (exceptOk (File { url := some "https://e.com/i.png", base64 := none, mimeType := none, filename := none }) = true)
    ∧ (exceptOk (File { url := none, base64 := some "abc", mimeType := some "image/png", filename := none }) = true) := by
  refine ⟨?_, ?_, ?_⟩
  · exact (claim_C8 { url := none, base64 := none, mimeType := none, filename := none }).1
      rfl rfl
  · exact (claim_C8 { url := some "https://e.com/i.png", base64 := none, mimeType := none, filename := none }).2
      (Or.inl rfl) (fun h => nomatch h)
  · exact (claim_C8 { url := none, base64 := some "abc", mimeType := some "image/png", filename := none }).2
      (Or.inr rfl) (fun _ => rfl)

/-- Claim C9: the ToolCall component stores its arguments under the input
prop while the walker reads the args prop, so for every authored id, name
and argument object the IR records the call with an empty argument object
(and an absent input field); the Format C adapter then emits a tool_use
block whose input is the never-written input field.  Only id and name
survive. -/
theorem claim_C9 (i n : String) (inp : JsValue) :
    (renderToIR [ToolCall i n inp]
      = [{ role := .assistant, content := "",
           toolCalls := some [{ id := i, name := n, args := .obj [], input := none }] }])
    ∧ ((renderToIR [ToolCall i n inp]).map toAnthropicMessage
      = [some { role := .assistant, content := .blocks [.toolUse i n none] }]) :=
  ⟨rfl, rfl⟩

end GumbeePrompt
